import Mathlib

/-!
Verification development for a Pokemon battle simulator
(`pokemon_base.py`, `poke_team.py`, `battle.py`).

The Python source is shallowly embedded: Python objects become Lean
structures, in-place mutation becomes explicit state passing, and the
numeric tower (Python ints and floats, whose operations here are all
exact dyadic/decimal values) is embedded into `ℚ`.  `math.ceil` is
`Int.ceil`.

The concrete data-structure package (`data_structures/…`) and the
species catalog (`pokemon.py`) are not part of the source tree; where
they are needed they are modelled from the specification, and marked
as such.
-/

namespace PokeGame

/-- A Pokemon (`pokemon_base.py`, class `Pokemon`).  Stats are embedded
into `ℚ` since `defend` and `apply_multiplier` produce non-integers.
The `species` field models the Python runtime class of the object
(`type(self)`), which is what `regenerate_team` uses to look up the
baseline health; it is never changed by any operation. -/
structure Pokemon where
  health : ℚ
  level : ℕ
  poketype : ℕ
  battle_power : ℚ
  evolution_line : List String
  name : String
  defence : ℚ
  speed : ℚ
  species : ℕ
deriving DecidableEq, Repr

/-- `Pokemon.attack`, the local variable `damage` before the
type-effectiveness multiplication (`pokemon_base.py` lines 209-216). -/
def Pokemon.baseDamage (self other : Pokemon) : ℚ :=
  if other.defence < self.battle_power / 2 then
    self.battle_power - other.defence
  else if other.defence < self.battle_power then
    ((⌈self.battle_power * 5 / 8 - other.defence / 4⌉ : ℤ) : ℚ)
  else
    ((⌈self.battle_power / 4⌉ : ℤ) : ℚ)

/-- `Pokemon.attack` (`pokemon_base.py` lines 195-218).  The
type-effectiveness table is loaded from a CSV file external to the
source; it is passed here as a function `eff` from attacker and
defender type to the multiplier. -/
def Pokemon.attack (self : Pokemon) (eff : ℕ → ℕ → ℚ) (other : Pokemon) : ℚ :=
  self.baseDamage other * eff self.poketype other.poketype

/-- `Pokemon.defend` (`pokemon_base.py` lines 220-229): halve the damage
when it is below the defence, then subtract from health (no clamping). -/
def Pokemon.defend (self : Pokemon) (damage : ℚ) : Pokemon :=
  { self with health := self.health - (if damage < self.defence then damage / 2 else damage) }

/-- `Pokemon.is_alive` (`pokemon_base.py` lines 272-279). -/
def Pokemon.is_alive (self : Pokemon) : Bool :=
  decide (0 < self.health)

/-- `Pokemon.apply_multiplier` (`pokemon_base.py` lines 260-270). -/
def Pokemon.apply_multiplier (self : Pokemon) (multiplier : ℚ) : Pokemon :=
  { self with
      battle_power := self.battle_power * multiplier
      health := self.health * multiplier
      speed := self.speed * multiplier
      defence := self.defence * multiplier }

/-- `Pokemon._evolve` (`pokemon_base.py` lines 246-258): advance the name
one position in the evolution line, drop the line's first element, and
apply the 1.5 multiplier.  The Python indexing `evolution_line[i]`
raises when out of range; that situation is unreachable under
`level_up`'s guard when the current name heads the line, and is
modelled by the `getD` default. -/
def Pokemon.evolve (self : Pokemon) : Pokemon :=
  let new_name_index := self.evolution_line.indexOf self.name + 1
  let q := { self with
      name := self.evolution_line.getD new_name_index self.name
      evolution_line := self.evolution_line.drop 1 }
  q.apply_multiplier (3 / 2)

/-- `Pokemon.level_up` (`pokemon_base.py` lines 231-244). -/
def Pokemon.level_up (self : Pokemon) : Pokemon :=
  let q := { self with level := self.level + 1 }
  if 0 < q.evolution_line.length ∧
      q.evolution_line.indexOf q.name ≠ q.evolution_line.length - 1 then
    q.evolve
  else
    q

/-- `Battle._calculate_attack_damage` (`battle.py` lines 263-281):
ceiling of the attack value scaled by the ratio of the two trainers'
pokedex completions. -/
def calculate_attack_damage (eff : ℕ → ℕ → ℚ) (attacker defender : Pokemon)
    (attacker_pokedex_completion defender_pokedex_completion : ℚ) : ℤ :=
  ⌈attacker.attack eff defender *
      (attacker_pokedex_completion / defender_pokedex_completion)⌉

/-- The attack-damage formula as the specification words it: the base
damage (piecewise in the attacker's battle power `bp` and the
defender's defence `df`), multiplied by the type effectiveness and by
the ratio of completion ratios, then ceiled to an integer.  Written
from the claim's words, to be compared with
`calculate_attack_damage`. -/
def attack_damage_spec (eff : ℕ → ℕ → ℚ) (attacker defender : Pokemon)
    (attacker_completion defender_completion : ℚ) : ℤ :=
  let bp := attacker.battle_power
  let df := defender.defence
  let base : ℚ :=
    if df < bp / 2 then bp - df
    else if df < bp then ((⌈bp * 5 / 8 - df / 4⌉ : ℤ) : ℚ)
    else ((⌈bp / 4⌉ : ℤ) : ℚ)
  ⌈base * eff attacker.poketype defender.poketype *
      (attacker_completion / defender_completion)⌉

/-! ### Team containers

The `data_structures` package (`ArrayStack`, `CircularQueue`,
`ArraySortedList` with `ListItem`) is not part of the source tree.
Modelled from the spec: KingOfHill is LIFO (push and pop at the top,
here the list head); Rotation is FIFO (serve at the front, append at
the back); Ranked is a dense list kept sorted ascending by signed key,
with insertion at the sort position (the position among equal keys is
not pinned by the spec; insertion before the first element of
greater-or-equal key is used here). -/

/-- `ArraySortedList.add`, modelled from the spec: insert keeping the
keys ascending. -/
def slAdd (x : ℚ × Pokemon) : List (ℚ × Pokemon) → List (ℚ × Pokemon)
  | [] => [x]
  | y :: ys => if x.1 ≤ y.1 then x :: y :: ys else y :: slAdd x ys

/-- The three concrete container classes a team can be bound to during
a battle. -/
inductive TKind where
  | stack
  | queue
  | slist
deriving DecidableEq, Repr

/-- A team container: `ArrayStack` (head = top), `CircularQueue`
(head = front) or `ArraySortedList` (ascending `(key, value)` pairs). -/
inductive Team where
  | stack (items : List Pokemon)
  | queue (items : List Pokemon)
  | slist (items : List (ℚ × Pokemon))
deriving DecidableEq, Repr

def Team.kind : Team → TKind
  | .stack _ => .stack
  | .queue _ => .queue
  | .slist _ => .slist

/-- Re-insertion of a combatant, dispatching on the kind `k` exactly as
the source dispatches with `isinstance`; `key` is the ranking key (used
only by the sorted list).  When `k` does not match the concrete
representation the source raises (`push`/`append`/`add` is missing);
that unreachable configuration is modelled by returning the container
unchanged. -/
def insertAs (k : TKind) (t : Team) (p : Pokemon) (key : ℚ) : Team :=
  match k, t with
  | .stack, .stack l => .stack (p :: l)
  | .queue, .queue l => .queue (l ++ [p])
  | .slist, .slist l => .slist (slAdd (key, p) l)
  | _, _ => t

/-- Re-insertion dispatching on the container's own representation. -/
def Team.insert (t : Team) (p : Pokemon) (key : ℚ) : Team :=
  insertAs t.kind t p key

/-- Number of combatants held. -/
def Team.lengthT : Team → ℕ
  | .stack l => l.length
  | .queue l => l.length
  | .slist l => l.length

/-- The combatants held by a container (for the Ranked variant, the
`ListItem` values). -/
def Team.values : Team → List Pokemon
  | .stack l => l
  | .queue l => l
  | .slist l => l.map Prod.snd

/-- `Battle._get_next_pokemon` (`battle.py` lines 172-193): `pop`,
`serve` or `delete_at_index(0)`; for the Ranked variant
`_conduct_battle` unwraps the `ListItem`'s value, which is fused in
here.  Taking from an empty container raises in the source (never
reached by `_conduct_battle`); modelled as `none`. -/
def Team.getNext : Team → Option (Pokemon × Team)
  | .stack [] => none
  | .stack (p :: l) => some (p, .stack l)
  | .queue [] => none
  | .queue (p :: l) => some (p, .queue l)
  | .slist [] => none
  | .slist (x :: l) => some (x.2, .slist l)

/-- The sort criterion strings accepted for Ranked mode
(`PokeTeam.CRITERION_LIST`). -/
inductive Criterion where
  | health
  | defence
  | battle_power
  | speed
  | level
deriving DecidableEq, Repr

/-- `getattr(pokemon, criterion)`. -/
def Pokemon.getattr (p : Pokemon) : Criterion → ℚ
  | .health => p.health
  | .defence => p.defence
  | .battle_power => p.battle_power
  | .speed => p.speed
  | .level => (p.level : ℚ)

/-- The ranking key used on re-insertion during a battle: the chosen
attribute, negated when the team's special counter is odd
(`battle.py` lines 310-313, 348-355, 366-369, 380-383). -/
def keyFor (crit : Criterion) (p : Pokemon) (counter : ℕ) : ℚ :=
  if counter % 2 = 0 then p.getattr crit else p.getattr crit * (-1)

/-- `Battle._check_alive` (`battle.py` lines 283-315): when the defender
has fainted, the attacker levels up and is re-inserted into its own
container.  Returns the (possibly leveled) attacker and its updated
container. -/
def check_alive (crit : Criterion) (counter : ℕ) (attacker defender : Pokemon)
    (attacker_team : Team) : Pokemon × Team :=
  if ¬ defender.is_alive then
    let a := attacker.level_up
    (a, attacker_team.insert a (keyFor crit a counter))
  else
    (attacker, attacker_team)

/-- `Battle._sudden_death` (`battle.py` lines 317-385).  Both combatants
lose exactly 1 health by direct decrement; if both survive both are
re-inserted, if exactly one survives it levels up and is re-inserted,
otherwise neither is.  The source dispatches on `t1_team`'s concrete
type even for `t2_team`'s insertions (lines 341-357 and 375-383), which
`insertAs t1_team.kind` reproduces. -/
def sudden_death (crit : Criterion) (c1 c2 : ℕ) (t1_pokemon t2_pokemon : Pokemon)
    (t1_team t2_team : Team) : Pokemon × Pokemon × Team × Team :=
  let p1 := { t1_pokemon with health := t1_pokemon.health - 1 }
  let p2 := { t2_pokemon with health := t2_pokemon.health - 1 }
  if p1.is_alive ∧ p2.is_alive then
    (p1, p2, t1_team.insert p1 (keyFor crit p1 c1),
      insertAs t1_team.kind t2_team p2 (keyFor crit p2 c2))
  else if p1.is_alive then
    let q1 := p1.level_up
    (q1, p2, t1_team.insert q1 (keyFor crit q1 c1), t2_team)
  else if p2.is_alive then
    let q2 := p2.level_up
    (p1, q2, t1_team, insertAs t1_team.kind t2_team q2 (keyFor crit q2 c2))
  else
    (p1, p2, t1_team, t2_team)

/-- `Battle._battle_round` (`battle.py` lines 195-259), state-passing:
returns the final values of the two combatants and the two containers.
`comp1`, `comp2` are the two trainers' pokedex completions (constant
within a round), `c1`, `c2` the two teams' special counters.

In the equal-speed branch the source inserts side 1's combatant (a
mutable reference) before the counterattack further mutates it, so the
container ends up holding the combatant's final value while its
ranking key was computed at insertion time; this aliasing is
reproduced by deferring that one insertion to the end of the round,
keeping the key computed at the insertion point. -/
def battle_round (eff : ℕ → ℕ → ℚ) (crit : Criterion) (c1 c2 : ℕ)
    (comp1 comp2 : ℚ) (t1_pokemon t2_pokemon : Pokemon)
    (t1_team t2_team : Team) : Pokemon × Pokemon × Team × Team :=
  if t2_pokemon.speed < t1_pokemon.speed then
    let d1 := calculate_attack_damage eff t1_pokemon t2_pokemon comp1 comp2
    let p2a := t2_pokemon.defend (d1 : ℚ)
    let r1 := check_alive crit c1 t1_pokemon p2a t1_team
    if p2a.is_alive then
      let d2 := calculate_attack_damage eff p2a r1.1 comp2 comp1
      let p1b := r1.1.defend (d2 : ℚ)
      let r2 := check_alive crit c2 p2a p1b t2_team
      if 0 < p1b.health ∧ 0 < r2.1.health then
        sudden_death crit c1 c2 p1b r2.1 r1.2 r2.2
      else
        (p1b, r2.1, r1.2, r2.2)
    else
      (r1.1, p2a, r1.2, t2_team)
  else if t1_pokemon.speed < t2_pokemon.speed then
    let d1 := calculate_attack_damage eff t2_pokemon t1_pokemon comp2 comp1
    let p1a := t1_pokemon.defend (d1 : ℚ)
    let r2 := check_alive crit c2 t2_pokemon p1a t2_team
    if p1a.is_alive then
      let d2 := calculate_attack_damage eff p1a r2.1 comp1 comp2
      let p2b := r2.1.defend (d2 : ℚ)
      let r1 := check_alive crit c1 p1a p2b t1_team
      if 0 < r1.1.health ∧ 0 < p2b.health then
        sudden_death crit c1 c2 r1.1 p2b r1.2 r2.2
      else
        (r1.1, p2b, r1.2, r2.2)
    else
      (p1a, r2.1, t1_team, r2.2)
  else
    let d1 := calculate_attack_damage eff t1_pokemon t2_pokemon comp1 comp2
    let p2a := t2_pokemon.defend (d1 : ℚ)
    -- `_check_alive(t1_pokemon, t2_pokemon, t1_team, ...)`: level-up now,
    -- insertion of the (aliased) combatant deferred to the round's end
    let ins1 := !p2a.is_alive
    let p1a := if ins1 then t1_pokemon.level_up else t1_pokemon
    let key1 := keyFor crit p1a c1
    let d2 := calculate_attack_damage eff p2a p1a comp2 comp1
    let p1b := p1a.defend (d2 : ℚ)
    let t1a := if ins1 then t1_team.insert p1b key1 else t1_team
    let r2 := check_alive crit c2 p2a p1b t2_team
    if 0 < p1b.health ∧ 0 < r2.1.health then
      sudden_death crit c1 c2 p1b r2.1 t1a r2.2
    else
      (p1b, r2.1, t1a, r2.2)

/-- The equal-speed round as the specification words it: side 1's
combatant damages side 2's; then side 2's combatant damages side 1's
even if side 2's combatant already fainted from the first attack (no
survival gating on the second attack); a fainted side's opponent
levels up and is re-inserted; sudden death is then invoked iff both
combatants' health is still strictly positive.  Written from the
claim's words, to be compared with `battle_round`. -/
def tie_round_spec (eff : ℕ → ℕ → ℚ) (crit : Criterion) (c1 c2 : ℕ)
    (comp1 comp2 : ℚ) (p1 p2 : Pokemon) (t1 t2 : Team) :
    Pokemon × Pokemon × Team × Team :=
  let p2a := p2.defend ((calculate_attack_damage eff p1 p2 comp1 comp2 : ℤ) : ℚ)
  let p1a := if 0 < p2a.health then p1 else p1.level_up
  let key1 := keyFor crit p1a c1
  let p1b := p1a.defend ((calculate_attack_damage eff p2a p1a comp2 comp1 : ℤ) : ℚ)
  let t1a := if 0 < p2a.health then t1 else t1.insert p1b key1
  let p2b := if 0 < p1b.health then p2a else p2a.level_up
  let t2a := if 0 < p1b.health then t2 else t2.insert p2b (keyFor crit p2b c2)
  if 0 < p1b.health ∧ 0 < p2b.health then
    sudden_death crit c1 c2 p1b p2b t1a t2a
  else
    (p1b, p2b, t1a, t2a)


/-! ### The battle loop (`Battle._conduct_battle` / `commence_battle`) -/

/-- The possible winners reported by `commence_battle`
(`self.winner_trainer`). -/
inductive Winner where
  | trainer1
  | trainer2
deriving DecidableEq, Repr

/-- Python `round(x, 2)` as used by `get_pokedex_completion`.  Python
rounds half to even; for every value that reaches this function
(`len(pokedex)/15` with `len(pokedex) ≤ 15`) the scaled value is never
a half-integer, so round-half-up coincides with the source. -/
def round2 (x : ℚ) : ℚ :=
  ((⌊x * 100 + 1 / 2⌋ : ℤ) : ℚ) / 100

/-- `Trainer.get_pokedex_completion` (`poke_team.py` lines 506-524): the
pokedex is a `BSet` of type values, `len(PokeType)` is 15. -/
def pokedex_completion (pokedex : Finset ℕ) : ℚ :=
  round2 ((pokedex.card : ℚ) / 15)

/-- The state mutated by `_conduct_battle`: the two team containers and
the two trainers' pokedexes (`BSet`s of type value + 1). -/
structure BattleState where
  t1_team : Team
  t2_team : Team
  dex1 : Finset ℕ
  dex2 : Finset ℕ

/-- `Battle._conduct_battle` (`battle.py` lines 114-170), fuel-indexed
since the source's while loop need not terminate: `none` means the
fuel ran out (or the unreachable take-from-empty), `some (r, st)` that
the loop exited with result `r` (the winner, or `none` for a draw) in
terminal state `st`.  Each iteration registers each combatant in the
opponent trainer's pokedex, then runs a round. -/
def conduct_battle (eff : ℕ → ℕ → ℚ) (crit : Criterion) (c1 c2 : ℕ) :
    ℕ → BattleState → Option (Option Winner × BattleState)
  | 0, _ => none
  | Nat.succ fuel, st =>
    if st.t1_team.lengthT = 0 ∧ st.t2_team.lengthT = 0 then
      some (none, st)
    else if st.t1_team.lengthT = 0 then
      some (some Winner.trainer2, st)
    else if st.t2_team.lengthT = 0 then
      some (some Winner.trainer1, st)
    else
      match st.t1_team.getNext, st.t2_team.getNext with
      | some (p1, t1r), some (p2, t2r) =>
        let dex1 := insert (p2.poketype + 1) st.dex1
        let dex2 := insert (p1.poketype + 1) st.dex2
        let r := battle_round eff crit c1 c2
          (pokedex_completion dex1) (pokedex_completion dex2) p1 p2 t1r t2r
        conduct_battle eff crit c1 c2 fuel ⟨r.2.2.1, r.2.2.2, dex1, dex2⟩
      | _, _ => none

/-- `Battle.commence_battle` (`battle.py` lines 50-69): runs
`_conduct_battle` and reports `winner_trainer` (`none` on a draw). -/
def commence_battle (eff : ℕ → ℕ → ℚ) (crit : Criterion) (c1 c2 : ℕ)
    (fuel : ℕ) (st : BattleState) : Option (Option Winner) :=
  (conduct_battle eff crit c1 c2 fuel st).map Prod.fst

/-! ### PokeTeam (`poke_team.py`)

`battle_mode.py` is not part of the source tree; the enum is modelled
from the spec (SET = 0, ROTATE = 1, OPTIMISE = 2). -/

inductive BattleMode where
  | SET
  | ROTATE
  | OPTIMISE
deriving DecidableEq, Repr

/-- `PokeTeam.assign_team` (`poke_team.py` lines 163-195): add every
combatant to an `ArraySortedList` keyed by the chosen attribute. -/
def assign_team (crit : Criterion) (team : List Pokemon) :
    List (ℚ × Pokemon) :=
  team.foldl (fun acc pokemon => slAdd (pokemon.getattr crit, pokemon) acc) []

/-- `PokeTeam.assemble_team` (`poke_team.py` lines 197-248): push into a
stack (SET), append into a queue (ROTATE) or sort into a list
(OPTIMISE). -/
def assemble_team (battle_mode : BattleMode) (crit : Criterion)
    (team : List Pokemon) : Team :=
  match battle_mode with
  | .SET => Team.stack (team.foldl (fun s p => p :: s) [])
  | .ROTATE => Team.queue (team.foldl (fun q p => q ++ [p]) [])
  | .OPTIMISE => Team.slist (assign_team crit team)

/-- A `PokeTeam`'s mutable state: the container, the `team_memory`
snapshot (the `ArrayR` aliased at selection time, never pruned
afterwards) and the special counter. -/
structure PokeTeam where
  team : Team
  team_memory : List Pokemon
  special_counter : ℕ
deriving DecidableEq

/-- `for _ in range(n): d.push(s.pop())` — move `n` items from the head
of `s` to the head of `d` (also `d.push(s.serve())` for a queue
source, whose serve is likewise the head).  Running out of items
raises in the source (unreachable: `n` never exceeds the length). -/
def popPushN : ℕ → List Pokemon → List Pokemon → List Pokemon × List Pokemon
  | 0, s, d => (s, d)
  | _ + 1, [], d => ([], d)
  | n + 1, x :: s, d => popPushN n s (x :: d)

/-- `for _ in range(n): d.append(s.serve())` — move `n` items from the
head of `s` to the back of `d` (also `d.append(s.pop())` for a stack
source, whose pop is likewise the head). -/
def serveAppendN : ℕ → List Pokemon → List Pokemon → List Pokemon × List Pokemon
  | 0, s, d => (s, d)
  | _ + 1, [], d => ([], d)
  | n + 1, x :: s, d => serveAppendN n s (d ++ [x])

/-- `PokeTeam.special`, SET branch (`poke_team.py` lines 285-295): the
three-stack shuffle reversing the top half. -/
def special_set (l : List Pokemon) : List Pokemon :=
  let r1 := popPushN (l.length / 2) l []
  let r2 := popPushN r1.2.length r1.2 []
  let r3 := popPushN r2.2.length r2.2 r1.1
  r3.2

/-- `PokeTeam.special`, ROTATE branch (`poke_team.py` lines 298-310):
the stack-and-queue shuffle reversing the bottom half. -/
def special_rotate (l : List Pokemon) : List Pokemon :=
  let a := serveAppendN (l.length / 2) l []
  let b := popPushN a.1.length a.1 []
  let c := serveAppendN b.2.length b.2 a.2
  let d := serveAppendN c.2.length c.2 []
  d.2

/-- `PokeTeam.special`, OPTIMISE branch loop (`poke_team.py` lines
313-319): repeatedly delete index 0, negate its key and add it to the
fresh sorted list. -/
def special_optimise_go :
    List (ℚ × Pokemon) → List (ℚ × Pokemon) → List (ℚ × Pokemon)
  | [], temp_asl => temp_asl
  | x :: s, temp_asl => special_optimise_go s (slAdd (-x.1, x.2) temp_asl)

/-- `PokeTeam.special`, OPTIMISE branch. -/
def special_optimise (l : List (ℚ × Pokemon)) : List (ℚ × Pokemon) :=
  special_optimise_go l []

/-- `PokeTeam.special` (`poke_team.py` lines 250-323).  The source
applies the mode's container operations to whatever representation is
bound and raises on a mismatch; the (unreachable) mismatch is modelled
as the identity. -/
def PokeTeam.special (battle_mode : BattleMode) (pt : PokeTeam) : PokeTeam :=
  match battle_mode, pt.team with
  | .SET, Team.stack l =>
    { pt with team := Team.stack (special_set l),
              special_counter := pt.special_counter + 1 }
  | .ROTATE, Team.queue l =>
    { pt with team := Team.queue (special_rotate l),
              special_counter := pt.special_counter + 1 }
  | .OPTIMISE, Team.slist l =>
    { pt with team := Team.slist (special_optimise l),
              special_counter := pt.special_counter + 1 }
  | _, _ => pt

/-- One step of `regenerate_team`'s healing loop:
`pokemon.health = POKE_HEALTH[POKE_LIST.index(type(pokemon))]`.
Modelled from the spec: the species catalog (`pokemon.py`, with its
`POKE_LIST` and `POKE_HEALTH` tables) is external; `baseHealth` maps
the combatant's runtime class (the `species` field) to its baseline
health. -/
def heal (baseHealth : ℕ → ℚ) (p : Pokemon) : Pokemon :=
  { p with health := baseHealth p.species }

/-- `PokeTeam.regenerate_team` (`poke_team.py` lines 129-161): heal
every combatant in the `team_memory` snapshot, rebind `team` to the
snapshot, reassemble for the battle mode, and replay the special when
the counter is odd. -/
def regenerate_team (baseHealth : ℕ → ℚ) (battle_mode : BattleMode)
    (crit : Criterion) (pt : PokeTeam) : PokeTeam :=
  let mem := pt.team_memory.map (heal baseHealth)
  let pt1 : PokeTeam :=
    { pt with team_memory := mem, team := assemble_team battle_mode crit mem }
  if pt1.special_counter % 2 = 1 then PokeTeam.special battle_mode pt1 else pt1

end PokeGame

open PokeGame

/-- A concrete combatant used by the witnesses and counterexamples:
1 health, 10 battle power, 2 defence, 5 speed, no evolution line. -/
def testA : Pokemon :=
  { health := 1, level := 1, poketype := 0, battle_power := 10,
    evolution_line := [], name := "a", defence := 2, speed := 5, species := 0 }

/-- C3: for every attacker and defender, the computed integer attack
damage equals ceil(base × effectiveness(attacker type, defender type) ×
(attacker completion ratio / defender completion ratio)), where base is
bp − df if df < bp/2, else ceil(bp·5/8 − df/4) if df < bp, else
ceil(bp/4). -/
theorem claim_C3 (eff : ℕ → ℕ → ℚ) (attacker defender : Pokemon) (ac dc : ℚ) :
    calculate_attack_damage eff attacker defender ac dc =
      attack_damage_spec eff attacker defender ac dc := by
  unfold calculate_attack_damage attack_damage_spec Pokemon.attack
  congr 1

/-- C4: `defend` decreases health by exactly damage/2 when the damage is
below the defence and by exactly the damage otherwise, with no clamping
at 0 (health may become negative), and `is_alive` holds iff health is
strictly positive. -/
theorem claim_C4 (p : Pokemon) (d : ℚ) :
    (d < p.defence → (p.defend d).health = p.health - d / 2) ∧
    (¬ d < p.defence → (p.defend d).health = p.health - d) ∧
    (p.is_alive = true ↔ 0 < p.health) ∧
    (testA.defend 8).health < 0 := by
  refine ⟨fun h => ?_, fun h => ?_, ?_, ?_⟩
  · simp [Pokemon.defend, if_pos h]
  · simp [Pokemon.defend, if_neg h]
  · simp [Pokemon.is_alive]
  · norm_num [Pokemon.defend, testA]

theorem claim_C4_witness :
    ¬ (8 : ℚ) < testA.defence ∧ (testA.defend 8).health = testA.health - 8 :=
  ⟨by norm_num [testA], (claim_C4 testA 8).2.1 (by norm_num [testA])⟩

/-- C8: `level_up` always increments the level by exactly 1, and
triggers evolution iff the evolution line is non-empty and the current
name is not its final element; on evolution the name advances exactly
one stage, the passed stage is dropped from the line, and battle power,
health, speed and defence are each multiplied by exactly 1.5.  The
current name heads the remaining evolution line (the state the source
maintains, since each evolution drops the passed stage). -/
theorem claim_C8 (p : Pokemon) :
    (p.level_up).level = p.level + 1 ∧
    (p.evolution_line = [] → p.level_up = { p with level := p.level + 1 }) ∧
    (p.evolution_line = [p.name] → p.level_up = { p with level := p.level + 1 }) ∧
    (∀ b rest, p.evolution_line = p.name :: b :: rest →
      p.level_up =
        { p with
            level := p.level + 1
            name := b
            evolution_line := b :: rest
            battle_power := p.battle_power * (3 / 2)
            health := p.health * (3 / 2)
            speed := p.speed * (3 / 2)
            defence := p.defence * (3 / 2) }) := by
  refine ⟨?_, fun h => ?_, fun h => ?_, fun b rest h => ?_⟩
  · unfold Pokemon.level_up
    dsimp only
    split
    · simp [Pokemon.evolve, Pokemon.apply_multiplier]
    · rfl
  · simp [Pokemon.level_up, h]
  · simp [Pokemon.level_up, h, List.indexOf_cons_self]
  · unfold Pokemon.level_up
    rw [if_pos]
    · simp only [Pokemon.evolve, Pokemon.apply_multiplier, h,
        List.indexOf_cons_self, List.getD, List.drop_succ_cons, List.drop_zero]
      rfl
    · constructor
      · simp [h]
      · simp [h, List.indexOf_cons_self]

theorem claim_C8_witness :
    ({ testA with evolution_line := ["a", "b"] } : Pokemon).level_up =
      { testA with
          level := 2
          name := "b"
          evolution_line := ["b"]
          battle_power := 15
          health := 3 / 2
          speed := 15 / 2
          defence := 3 } := by
  have h := (claim_C8 { testA with evolution_line := ["a", "b"] }).2.2.2 "b" [] (by simp [testA])
  rw [h]
  norm_num [testA]


/-- C10 (implicit): for positive attacker battle power the base damage
is strictly positive (and at least 1 when battle power and defence are
integers); hence with a nonzero effectiveness multiplier and positive
completion ratios the ceiled damage is at least 1 and `defend` strictly
decreases the defender's health; the attack leaves the defender's
health unchanged only when the effectiveness value is 0. -/
theorem claim_C10 (eff : ℕ → ℕ → ℚ) (attacker defender : Pokemon) (ac dc : ℚ)
    (hbp : 0 < attacker.battle_power)
    (heff : 0 ≤ eff attacker.poketype defender.poketype)
    (hac : 0 < ac) (hdc : 0 < dc) :
    0 < attacker.baseDamage defender ∧
    (∀ n m : ℤ, attacker.battle_power = (n : ℚ) → defender.defence = (m : ℚ) →
      1 ≤ attacker.baseDamage defender) ∧
    (0 < eff attacker.poketype defender.poketype →
      1 ≤ calculate_attack_damage eff attacker defender ac dc ∧
      (defender.defend
          ((calculate_attack_damage eff attacker defender ac dc : ℤ) : ℚ)).health <
        defender.health) ∧
    ((defender.defend
          ((calculate_attack_damage eff attacker defender ac dc : ℤ) : ℚ)).health =
        defender.health →
      eff attacker.poketype defender.poketype = 0) := by
  have hbase : 0 < attacker.baseDamage defender := by
    unfold Pokemon.baseDamage
    split_ifs with h1 h2
    · linarith
    · have hx : (0 : ℚ) < attacker.battle_power * 5 / 8 - defender.defence / 4 := by
        push_neg at h1
        linarith
      exact_mod_cast Int.ceil_pos.mpr hx
    · have hx : (0 : ℚ) < attacker.battle_power / 4 := by linarith
      exact_mod_cast Int.ceil_pos.mpr hx
  have hdmg : 0 < eff attacker.poketype defender.poketype →
      1 ≤ calculate_attack_damage eff attacker defender ac dc := by
    intro he
    unfold calculate_attack_damage Pokemon.attack
    have hx : (0 : ℚ) <
        attacker.baseDamage defender * eff attacker.poketype defender.poketype *
          (ac / dc) := by
      have := div_pos hac hdc
      positivity
    exact Int.ceil_pos.mpr hx
  have hdec : 0 < eff attacker.poketype defender.poketype →
      (defender.defend
          ((calculate_attack_damage eff attacker defender ac dc : ℤ) : ℚ)).health <
        defender.health := by
    intro he
    have h1 := hdmg he
    have h1' : (1 : ℚ) ≤ ((calculate_attack_damage eff attacker defender ac dc : ℤ) : ℚ) := by
      exact_mod_cast h1
    unfold Pokemon.defend
    dsimp only
    split <;> linarith
  refine ⟨hbase, ?_, fun he => ⟨hdmg he, hdec he⟩, ?_⟩
  · intro n m hn hm
    unfold Pokemon.baseDamage
    split_ifs with h1 h2
    · rw [hn, hm] at h1 ⊢
      rw [hn] at hbp
      have h0 : (0 : ℤ) < n - m := by
        have : (0 : ℚ) < (n : ℚ) - m := by linarith
        exact_mod_cast this
      have h0' : (1 : ℤ) ≤ n - m := h0
      have : ((1 : ℤ) : ℚ) ≤ ((n - m : ℤ) : ℚ) := by exact_mod_cast h0'
      push_cast at this
      linarith
    · have hx : (0 : ℚ) < attacker.battle_power * 5 / 8 - defender.defence / 4 := by
        push_neg at h1
        linarith
      have : (1 : ℤ) ≤ ⌈attacker.battle_power * 5 / 8 - defender.defence / 4⌉ :=
        Int.ceil_pos.mpr hx
      exact_mod_cast this
    · have hx : (0 : ℚ) < attacker.battle_power / 4 := by linarith
      have : (1 : ℤ) ≤ ⌈attacker.battle_power / 4⌉ := Int.ceil_pos.mpr hx
      exact_mod_cast this
  · intro hunch
    by_contra hne
    have he : 0 < eff attacker.poketype defender.poketype :=
      lt_of_le_of_ne heff (Ne.symm hne)
    exact absurd hunch (ne_of_lt (hdec he))

theorem claim_C10_witness :
    (0 : ℚ) < testA.battle_power ∧
    0 < testA.baseDamage testA ∧
    1 ≤ calculate_attack_damage (fun _ _ => 1) testA testA 1 1 := by
  have h := claim_C10 (fun _ _ => 1) testA testA 1 1
    (by norm_num [testA]) (by norm_num) (by norm_num) (by norm_num)
  exact ⟨by norm_num [testA], h.1, (h.2.2.1 (by norm_num)).1⟩

/-- C2: in a round where the two combatants have equal speed, both
attacks are resolved unconditionally (side 2's combatant retaliates
even if it already fainted from the first attack), and sudden death is
invoked iff both combatants' health is still strictly positive — the
round coincides with `tie_round_spec`, the spec's description of the
tie branch. -/
theorem claim_C2 (eff : ℕ → ℕ → ℚ) (crit : Criterion) (c1 c2 : ℕ)
    (comp1 comp2 : ℚ) (p1 p2 : Pokemon) (t1 t2 : Team)
    (h : p1.speed = p2.speed) :
    battle_round eff crit c1 c2 comp1 comp2 p1 p2 t1 t2 =
      tie_round_spec eff crit c1 c2 comp1 comp2 p1 p2 t1 t2 := by
  unfold battle_round tie_round_spec check_alive
  rw [h]
  simp only [lt_irrefl, if_false, ite_false, Pokemon.is_alive,
    Bool.not_eq_true', decide_eq_true_eq, decide_eq_false_iff_not]
  split_ifs <;> rfl

/-- C2 witness: a concrete equal-speed round. -/
theorem claim_C2_witness :
    testA.speed = testA.speed ∧
    battle_round (fun _ _ => 1) Criterion.health 0 0 1 1 testA testA
        (Team.stack []) (Team.stack []) =
      tie_round_spec (fun _ _ => 1) Criterion.health 0 0 1 1 testA testA
        (Team.stack []) (Team.stack []) :=
  ⟨rfl, claim_C2 (fun _ _ => 1) Criterion.health 0 0 1 1 testA testA
    (Team.stack []) (Team.stack []) rfl⟩

/-- C5: sudden death decrements both combatants' health by exactly 1
directly (bypassing `defend`); afterwards, if both are alive both are
re-inserted with no level-up; if exactly one is alive the survivor
gains exactly one level-up and is re-inserted while the other is not;
if neither is alive, neither is re-inserted and no level-up occurs.
(Both containers share the battle's representation, as every battle
assembles both teams with its single battle mode.) -/
theorem claim_C5 (crit : Criterion) (c1 c2 : ℕ) (p1 p2 : Pokemon) (t1 t2 : Team)
    (hk : t1.kind = t2.kind) :
    let q1 : Pokemon := { p1 with health := p1.health - 1 }
    let q2 : Pokemon := { p2 with health := p2.health - 1 }
    (0 < q1.health → 0 < q2.health →
      sudden_death crit c1 c2 p1 p2 t1 t2 =
        (q1, q2, t1.insert q1 (keyFor crit q1 c1),
          t2.insert q2 (keyFor crit q2 c2))) ∧
    (0 < q1.health → q2.health ≤ 0 →
      sudden_death crit c1 c2 p1 p2 t1 t2 =
        (q1.level_up, q2, t1.insert q1.level_up (keyFor crit q1.level_up c1), t2)) ∧
    (q1.health ≤ 0 → 0 < q2.health →
      sudden_death crit c1 c2 p1 p2 t1 t2 =
        (q1, q2.level_up, t1, t2.insert q2.level_up (keyFor crit q2.level_up c2))) ∧
    (q1.health ≤ 0 → q2.health ≤ 0 →
      sudden_death crit c1 c2 p1 p2 t1 t2 = (q1, q2, t1, t2)) := by
  intro q1 q2
  have hins : ∀ (p : Pokemon) (k : ℚ), insertAs t1.kind t2 p k = t2.insert p k := by
    intro p k
    rw [hk, Team.insert]
  refine ⟨fun h1 h2 => ?_, fun h1 h2 => ?_, fun h1 h2 => ?_, fun h1 h2 => ?_⟩
  · unfold sudden_death
    simp only [Pokemon.is_alive, decide_eq_true_eq]
    rw [if_pos ⟨h1, h2⟩, hins]
  · unfold sudden_death
    simp only [Pokemon.is_alive, decide_eq_true_eq]
    rw [if_neg (fun hc => absurd hc.2 (not_lt.mpr h2)), if_pos h1]
  · unfold sudden_death
    simp only [Pokemon.is_alive, decide_eq_true_eq]
    rw [if_neg (fun hc => absurd hc.1 (not_lt.mpr h1)),
      if_neg (not_lt.mpr h1), if_pos h2, hins]
  · unfold sudden_death
    simp only [Pokemon.is_alive, decide_eq_true_eq]
    rw [if_neg (fun hc => absurd hc.1 (not_lt.mpr h1)),
      if_neg (not_lt.mpr h1), if_neg (not_lt.mpr h2)]

/-- C5 witness: a concrete sudden death in which both survive. -/
theorem claim_C5_witness :
    sudden_death Criterion.health 0 0 { testA with health := 5 }
        { testA with health := 5 } (Team.stack []) (Team.stack []) =
      ({ testA with health := 4 }, { testA with health := 4 },
        Team.stack [{ testA with health := 4 }],
        Team.stack [{ testA with health := 4 }]) := by
  have h := (claim_C5 Criterion.health 0 0 { testA with health := 5 }
    { testA with health := 5 } (Team.stack []) (Team.stack []) rfl).1
    (by norm_num [testA]) (by norm_num [testA])
  rw [h]
  norm_num [testA, Team.insert, insertAs, Team.kind, keyFor, Pokemon.getattr]

lemma slAdd_perm (x : ℚ × Pokemon) (l : List (ℚ × Pokemon)) :
    (slAdd x l).Perm (x :: l) := by
  induction l with
  | nil => exact List.Perm.refl _
  | cons y ys ih =>
    unfold slAdd
    split
    · exact List.Perm.refl _
    · exact (ih.cons y).trans (List.Perm.swap x y ys)

lemma insert_lengthT (t : Team) (p : Pokemon) (k : ℚ) :
    (t.insert p k).lengthT = t.lengthT + 1 := by
  cases t with
  | stack l => rfl
  | queue l => simp [Team.insert, insertAs, Team.kind, Team.lengthT]
  | slist l =>
    simp only [Team.insert, insertAs, Team.kind, Team.lengthT]
    exact (slAdd_perm (k, p) l).length_eq

lemma mem_insert_values (t : Team) (p : Pokemon) (k : ℚ) :
    p ∈ (t.insert p k).values := by
  cases t with
  | stack l => simp [Team.insert, insertAs, Team.kind, Team.values]
  | queue l => simp [Team.insert, insertAs, Team.kind, Team.values]
  | slist l =>
    simp only [Team.insert, insertAs, Team.kind, Team.values]
    have := ((slAdd_perm (k, p) l).map Prod.snd).mem_iff (a := p)
    simp only [List.map_cons] at this
    exact this.mpr (List.mem_cons_self _ _)

lemma insert_kind (t : Team) (p : Pokemon) (k : ℚ) :
    (t.insert p k).kind = t.kind := by
  cases t <;> rfl

lemma insertAs_kind (kd : TKind) (t : Team) (p : Pokemon) (k : ℚ) :
    (insertAs kd t p k).kind = t.kind := by
  cases kd <;> cases t <;> rfl

lemma levelUp_health (p : Pokemon) :
    p.level_up.health = p.health ∨ p.level_up.health = p.health * (3 / 2) := by
  unfold Pokemon.level_up
  dsimp only
  split
  · right
    rfl
  · left
    rfl

lemma levelUp_health_pos (p : Pokemon) (h : 0 < p.health) :
    0 < p.level_up.health := by
  rcases levelUp_health p with he | he <;> rw [he] <;> linarith

lemma levelUp_health_nonpos (p : Pokemon) (h : p.health ≤ 0) :
    p.level_up.health ≤ 0 := by
  rcases levelUp_health p with he | he <;> rw [he] <;> linarith

/-- C1 counterexample: an equal-speed round between two copies of a
combatant with 1 health and 10 battle power.  The first attack faints
side 2's combatant, the ungated counterattack faints side 1's, and
`_check_alive` re-inserts **both** fainted combatants (health −7) into
their containers — refuting that no combatant with health ≤ 0 is ever
re-inserted, and with it the terminal-state conservation equation. -/
theorem claim_C1_counterexample :
    (battle_round (fun _ _ => 1) Criterion.health 0 0 1 1 testA testA
        (Team.stack []) (Team.stack [])).2.2 =
      (Team.stack [{ testA with health := -7, level := 2 }],
        Team.stack [{ testA with health := -7, level := 2 }]) ∧
    ({ testA with health := -7, level := 2 } : Pokemon).health ≤ 0 := by
  constructor
  · norm_num [battle_round, check_alive, sudden_death, calculate_attack_damage,
      Pokemon.attack, Pokemon.baseDamage, Pokemon.defend, Pokemon.is_alive,
      Pokemon.level_up, Pokemon.evolve, Pokemon.apply_multiplier,
      Team.insert, insertAs, Team.kind, keyFor, Pokemon.getattr, testA]
  · norm_num [testA]

lemma insertAs_insert (t1 t2 : Team) (hk : t1.kind = t2.kind) (p : Pokemon) (k : ℚ) :
    insertAs t1.kind t2 p k = t2.insert p k := by
  rw [hk, Team.insert]

lemma sudden_death_cases (crit : Criterion) (c1 c2 : ℕ) (p1 p2 : Pokemon)
    (t1 t2 : Team) (hk : t1.kind = t2.kind) :
    let q1 : Pokemon := { p1 with health := p1.health - 1 }
    let q2 : Pokemon := { p2 with health := p2.health - 1 }
    (0 < q1.health → 0 < q2.health →
      sudden_death crit c1 c2 p1 p2 t1 t2 =
        (q1, q2, t1.insert q1 (keyFor crit q1 c1),
          t2.insert q2 (keyFor crit q2 c2))) ∧
    (0 < q1.health → q2.health ≤ 0 →
      sudden_death crit c1 c2 p1 p2 t1 t2 =
        (q1.level_up, q2, t1.insert q1.level_up (keyFor crit q1.level_up c1), t2)) ∧
    (q1.health ≤ 0 → 0 < q2.health →
      sudden_death crit c1 c2 p1 p2 t1 t2 =
        (q1, q2.level_up, t1, t2.insert q2.level_up (keyFor crit q2.level_up c2))) ∧
    (q1.health ≤ 0 → q2.health ≤ 0 →
      sudden_death crit c1 c2 p1 p2 t1 t2 = (q1, q2, t1, t2)) := by
  intro q1 q2
  refine ⟨fun ha hb => ?_, fun ha hb => ?_, fun ha hb => ?_, fun ha hb => ?_⟩
  · unfold sudden_death
    simp only [Pokemon.is_alive, decide_eq_true_eq]
    rw [if_pos ⟨ha, hb⟩, insertAs_insert t1 t2 hk]
  · unfold sudden_death
    simp only [Pokemon.is_alive, decide_eq_true_eq]
    rw [if_neg (fun hc => absurd hc.2 (not_lt.mpr hb)), if_pos ha]
  · unfold sudden_death
    simp only [Pokemon.is_alive, decide_eq_true_eq]
    rw [if_neg (fun hc => absurd hc.1 (not_lt.mpr ha)),
      if_neg (not_lt.mpr ha), if_pos hb, insertAs_insert t1 t2 hk]
  · unfold sudden_death
    simp only [Pokemon.is_alive, decide_eq_true_eq]
    rw [if_neg (fun hc => absurd hc.1 (not_lt.mpr ha)),
      if_neg (not_lt.mpr ha), if_neg (not_lt.mpr hb)]

lemma sudden_death_goal (crit : Criterion) (c1 c2 : ℕ) (q1 q2 : Pokemon)
    (t1 t2 : Team) (hk : t1.kind = t2.kind) (sp1 sp2 : ℚ) :
    (0 < (sudden_death crit c1 c2 q1 q2 t1 t2).1.health →
      (sudden_death crit c1 c2 q1 q2 t1 t2).2.2.1.lengthT = t1.lengthT + 1 ∧
      (sudden_death crit c1 c2 q1 q2 t1 t2).1 ∈
        (sudden_death crit c1 c2 q1 q2 t1 t2).2.2.1.values) ∧
    (0 < (sudden_death crit c1 c2 q1 q2 t1 t2).2.1.health →
      (sudden_death crit c1 c2 q1 q2 t1 t2).2.2.2.lengthT = t2.lengthT + 1 ∧
      (sudden_death crit c1 c2 q1 q2 t1 t2).2.1 ∈
        (sudden_death crit c1 c2 q1 q2 t1 t2).2.2.2.values) ∧
    (sudden_death crit c1 c2 q1 q2 t1 t2).2.2.1.lengthT ≤ t1.lengthT + 1 ∧
    (sudden_death crit c1 c2 q1 q2 t1 t2).2.2.2.lengthT ≤ t2.lengthT + 1 ∧
    (sp1 ≠ sp2 →
      ((sudden_death crit c1 c2 q1 q2 t1 t2).1.health ≤ 0 →
        (sudden_death crit c1 c2 q1 q2 t1 t2).2.2.1 = t1) ∧
      ((sudden_death crit c1 c2 q1 q2 t1 t2).2.1.health ≤ 0 →
        (sudden_death crit c1 c2 q1 q2 t1 t2).2.2.2 = t2)) ∧
    (sp1 = sp2 →
      ((sudden_death crit c1 c2 q1 q2 t1 t2).1.health ≤ 0 →
        (sudden_death crit c1 c2 q1 q2 t1 t2).2.2.1 = t1 ∨
        ((sudden_death crit c1 c2 q1 q2 t1 t2).2.1.health ≤ 0 ∧
          (sudden_death crit c1 c2 q1 q2 t1 t2).1 ∈
            (sudden_death crit c1 c2 q1 q2 t1 t2).2.2.1.values ∧
          (sudden_death crit c1 c2 q1 q2 t1 t2).2.1 ∈
            (sudden_death crit c1 c2 q1 q2 t1 t2).2.2.2.values)) ∧
      ((sudden_death crit c1 c2 q1 q2 t1 t2).2.1.health ≤ 0 →
        (sudden_death crit c1 c2 q1 q2 t1 t2).2.2.2 = t2 ∨
        ((sudden_death crit c1 c2 q1 q2 t1 t2).1.health ≤ 0 ∧
          (sudden_death crit c1 c2 q1 q2 t1 t2).1 ∈
            (sudden_death crit c1 c2 q1 q2 t1 t2).2.2.1.values ∧
          (sudden_death crit c1 c2 q1 q2 t1 t2).2.1 ∈
            (sudden_death crit c1 c2 q1 q2 t1 t2).2.2.2.values))) := by
  obtain ⟨hc1, hc2, hc3, hc4⟩ := sudden_death_cases crit c1 c2 q1 q2 t1 t2 hk
  rcases lt_or_le 0 (q1.health - 1) with e1 | e1 <;>
    rcases lt_or_le 0 (q2.health - 1) with e2 | e2
  · rw [hc1 e1 e2]
    refine ⟨fun _ => ⟨insert_lengthT _ _ _, mem_insert_values _ _ _⟩,
      fun _ => ⟨insert_lengthT _ _ _, mem_insert_values _ _ _⟩,
      le_of_eq (insert_lengthT _ _ _), le_of_eq (insert_lengthT _ _ _),
      fun _ => ⟨fun hx => absurd hx (not_le.mpr e1), fun hx => absurd hx (not_le.mpr e2)⟩,
      fun _ => ⟨fun hx => absurd hx (not_le.mpr e1), fun hx => absurd hx (not_le.mpr e2)⟩⟩
  · rw [hc2 e1 e2]
    have hpos : 0 < (({ q1 with health := q1.health - 1 } : Pokemon).level_up).health :=
      levelUp_health_pos _ e1
    refine ⟨fun _ => ⟨insert_lengthT _ _ _, mem_insert_values _ _ _⟩,
      fun hx => absurd hx (by dsimp only; linarith),
      le_of_eq (insert_lengthT _ _ _), Nat.le_succ _,
      fun _ => ⟨fun hx => absurd hx (not_le.mpr hpos), fun _ => rfl⟩,
      fun _ => ⟨fun hx => absurd hx (not_le.mpr hpos), fun _ => Or.inl rfl⟩⟩
  · rw [hc3 e1 e2]
    have hpos : 0 < (({ q2 with health := q2.health - 1 } : Pokemon).level_up).health :=
      levelUp_health_pos _ e2
    refine ⟨fun hx => absurd hx (by dsimp only; linarith),
      fun _ => ⟨insert_lengthT _ _ _, mem_insert_values _ _ _⟩,
      Nat.le_succ _, le_of_eq (insert_lengthT _ _ _),
      fun _ => ⟨fun _ => rfl, fun hx => absurd hx (not_le.mpr hpos)⟩,
      fun _ => ⟨fun _ => Or.inl rfl, fun hx => absurd hx (not_le.mpr hpos)⟩⟩
  · rw [hc4 e1 e2]
    refine ⟨fun hx => absurd hx (by dsimp only; linarith),
      fun hx => absurd hx (by dsimp only; linarith),
      Nat.le_succ _, Nat.le_succ _,
      fun _ => ⟨fun _ => rfl, fun _ => rfl⟩,
      fun _ => ⟨fun _ => Or.inl rfl, fun _ => Or.inl rfl⟩⟩

set_option maxHeartbeats 1000000 in
/-- C1 (amended): per-round team-membership accounting.  Out of the two
combatants taken for a round (both alive, both teams bound to the
battle's single container representation): a combatant whose final
health is positive is re-inserted into its own container exactly once
and each container gains at most one member (no duplication); in the
strict-speed branches a combatant with final health ≤ 0 is never
re-inserted; but in the equal-speed branch, when the first attack
faints side 2's combatant and the ungated counterattack faints side
1's, **both** fainted combatants are re-inserted (health ≤ 0), so the
claimed terminal-state conservation equation fails for such rounds. -/
theorem claim_C1_amended (eff : ℕ → ℕ → ℚ) (crit : Criterion) (c1 c2 : ℕ)
    (comp1 comp2 : ℚ) (p1 p2 : Pokemon) (t1 t2 : Team)
    (hk : t1.kind = t2.kind) (h1 : 0 < p1.health) (h2 : 0 < p2.health)
    (R : Pokemon × Pokemon × Team × Team)
    (hR : R = battle_round eff crit c1 c2 comp1 comp2 p1 p2 t1 t2) :
    (0 < R.1.health → R.2.2.1.lengthT = t1.lengthT + 1 ∧ R.1 ∈ R.2.2.1.values) ∧
    (0 < R.2.1.health → R.2.2.2.lengthT = t2.lengthT + 1 ∧ R.2.1 ∈ R.2.2.2.values) ∧
    R.2.2.1.lengthT ≤ t1.lengthT + 1 ∧
    R.2.2.2.lengthT ≤ t2.lengthT + 1 ∧
    (p1.speed ≠ p2.speed →
      (R.1.health ≤ 0 → R.2.2.1 = t1) ∧ (R.2.1.health ≤ 0 → R.2.2.2 = t2)) ∧
    (p1.speed = p2.speed →
      (R.1.health ≤ 0 → R.2.2.1 = t1 ∨
        (R.2.1.health ≤ 0 ∧ R.1 ∈ R.2.2.1.values ∧ R.2.1 ∈ R.2.2.2.values)) ∧
      (R.2.1.health ≤ 0 → R.2.2.2 = t2 ∨
        (R.1.health ≤ 0 ∧ R.1 ∈ R.2.2.1.values ∧ R.2.1 ∈ R.2.2.2.values))) := by
  subst hR
  unfold battle_round check_alive
  simp only [Pokemon.is_alive, decide_eq_true_eq, Bool.not_eq_true',
    decide_eq_false_iff_not]
  split_ifs
  all_goals (try dsimp only at *)
  -- strict branch, side 1 faster
  · exact sudden_death_goal crit c1 c2 _ _ t1 t2 hk p1.speed p2.speed
  · exfalso; tauto
  · exfalso; tauto
  · -- retaliation faints side 1
    exact ⟨fun hx => absurd hx (by assumption),
      fun _ => ⟨insert_lengthT _ _ _, mem_insert_values _ _ _⟩,
      Nat.le_succ _, le_of_eq (insert_lengthT _ _ _),
      fun _ => ⟨fun _ => rfl,
        fun hx => absurd hx (not_le.mpr (levelUp_health_pos _ (by assumption)))⟩,
      fun _ => ⟨fun _ => Or.inl rfl,
        fun hx => absurd hx (not_le.mpr (levelUp_health_pos _ (by assumption)))⟩⟩
  · -- first attack faints side 2
    exact ⟨fun _ => ⟨insert_lengthT _ _ _, mem_insert_values _ _ _⟩,
      fun hx => absurd hx (by assumption),
      le_of_eq (insert_lengthT _ _ _), Nat.le_succ _,
      fun _ => ⟨fun hx => absurd hx (not_le.mpr (levelUp_health_pos _ h1)),
        fun _ => rfl⟩,
      fun _ => ⟨fun hx => absurd hx (not_le.mpr (levelUp_health_pos _ h1)),
        fun _ => Or.inl rfl⟩⟩
  -- strict branch, side 2 faster
  · exact sudden_death_goal crit c1 c2 _ _ t1 t2 hk p1.speed p2.speed
  · exfalso; tauto
  · exfalso; tauto
  · -- retaliation faints side 2
    exact ⟨fun _ => ⟨insert_lengthT _ _ _, mem_insert_values _ _ _⟩,
      fun hx => absurd hx (by assumption),
      le_of_eq (insert_lengthT _ _ _), Nat.le_succ _,
      fun _ => ⟨fun hx => absurd hx (not_le.mpr (levelUp_health_pos _ (by assumption))),
        fun _ => rfl⟩,
      fun _ => ⟨fun hx => absurd hx (not_le.mpr (levelUp_health_pos _ (by assumption))),
        fun _ => Or.inl rfl⟩⟩
  · -- first attack faints side 1
    exact ⟨fun hx => absurd hx (by assumption),
      fun _ => ⟨insert_lengthT _ _ _, mem_insert_values _ _ _⟩,
      Nat.le_succ _, le_of_eq (insert_lengthT _ _ _),
      fun _ => ⟨fun _ => rfl,
        fun hx => absurd hx (not_le.mpr (levelUp_health_pos _ h2))⟩,
      fun _ => ⟨fun _ => Or.inl rfl,
        fun hx => absurd hx (not_le.mpr (levelUp_health_pos _ h2))⟩⟩
  -- equal speeds
  · exact sudden_death_goal crit c1 c2 _ _ t1 t2 hk p1.speed p2.speed
  · exfalso; tauto
  · exfalso; tauto
  · -- counterattack faints side 1, side 2 alive
    exact ⟨fun hx => absurd hx (by assumption),
      fun _ => ⟨insert_lengthT _ _ _, mem_insert_values _ _ _⟩,
      Nat.le_succ _, le_of_eq (insert_lengthT _ _ _),
      fun _ => ⟨fun _ => rfl,
        fun hx => absurd hx (not_le.mpr (levelUp_health_pos _ (by assumption)))⟩,
      fun _ => ⟨fun _ => Or.inl rfl,
        fun hx => absurd hx (not_le.mpr (levelUp_health_pos _ (by assumption)))⟩⟩
  · exfalso; tauto
  · -- first attack faints side 2, side 1 survives the counterattack
    exact ⟨fun _ => ⟨insert_lengthT _ _ _, mem_insert_values _ _ _⟩,
      fun hx => absurd hx (by assumption),
      le_of_eq (insert_lengthT _ _ _), Nat.le_succ _,
      fun _ => ⟨fun hx => absurd hx (not_le.mpr (by assumption)), fun _ => rfl⟩,
      fun _ => ⟨fun hx => absurd hx (not_le.mpr (by assumption)),
        fun _ => Or.inl rfl⟩⟩
  · exfalso; tauto
  · -- mutual knockout in the exchange: both dead combatants re-inserted
    exact ⟨fun hx => absurd hx (by assumption),
      fun hx => absurd hx
        (not_lt.mpr (levelUp_health_nonpos _ (le_of_not_lt (by assumption)))),
      le_of_eq (insert_lengthT _ _ _), le_of_eq (insert_lengthT _ _ _),
      fun hsp => absurd
        (le_antisymm (not_lt.mp (by assumption)) (not_lt.mp (by assumption))) hsp,
      fun _ => ⟨fun _ => Or.inr
          ⟨levelUp_health_nonpos _ (le_of_not_lt (by assumption)),
            mem_insert_values _ _ _, mem_insert_values _ _ _⟩,
        fun _ => Or.inr ⟨le_of_not_lt (by assumption),
          mem_insert_values _ _ _, mem_insert_values _ _ _⟩⟩⟩

/-- C1 witness: a concrete round for the amended statement. -/
theorem claim_C1_amended_witness :
    (battle_round (fun _ _ => 1) Criterion.health 0 0 1 1 testA testA
        (Team.stack []) (Team.stack [])).2.2.1.lengthT ≤
      (Team.stack ([] : List Pokemon)).lengthT + 1 :=
  (claim_C1_amended (fun _ _ => 1) Criterion.health 0 0 1 1 testA testA
    (Team.stack []) (Team.stack []) rfl (by norm_num [testA])
    (by norm_num [testA]) _ rfl).2.2.1

/-- C6: for every battle that terminates (within the given fuel),
`commence_battle`'s result is trainer 2 iff team 1's container ended
empty while team 2's did not, trainer 1 iff team 2's ended empty while
team 1's did not, and a draw (`none`) iff both ended empty
simultaneously. -/
theorem claim_C6 (eff : ℕ → ℕ → ℚ) (crit : Criterion) (c1 c2 : ℕ)
    (fuel : ℕ) (st : BattleState) (r : Option Winner) (st' : BattleState)
    (h : conduct_battle eff crit c1 c2 fuel st = some (r, st')) :
    commence_battle eff crit c1 c2 fuel st = some r ∧
    (r = some Winner.trainer2 ↔
      st'.t1_team.lengthT = 0 ∧ st'.t2_team.lengthT ≠ 0) ∧
    (r = some Winner.trainer1 ↔
      st'.t2_team.lengthT = 0 ∧ st'.t1_team.lengthT ≠ 0) ∧
    (r = none ↔ st'.t1_team.lengthT = 0 ∧ st'.t2_team.lengthT = 0) := by
  refine ⟨by rw [commence_battle, h]; rfl, ?_⟩
  induction fuel generalizing st with
  | zero => simp [conduct_battle] at h
  | succ n ih =>
    rw [conduct_battle] at h
    split_ifs at h with hb h1 h2
    · obtain ⟨rfl, rfl⟩ : none = r ∧ st = st' := by
        simpa using h
      simp [hb.1, hb.2]
    · obtain ⟨rfl, rfl⟩ : some Winner.trainer2 = r ∧ st = st' := by
        simpa using h
      have h2 : st.t2_team.lengthT ≠ 0 := fun hc => hb ⟨h1, hc⟩
      simp [h1, h2]
    · obtain ⟨rfl, rfl⟩ : some Winner.trainer1 = r ∧ st = st' := by
        simpa using h
      simp [h1, h2]
    · rcases hg1 : st.t1_team.getNext with _ | ⟨p1, t1r⟩ <;>
        rcases hg2 : st.t2_team.getNext with _ | ⟨p2, t2r⟩ <;>
        rw [hg1, hg2] at h
      · simp at h
      · simp at h
      · simp at h
      · exact ih _ h

/-- C6 witness: a one-step battle where team 1 is already empty. -/
theorem claim_C6_witness :
    (some Winner.trainer2 = some Winner.trainer2 ↔
      (Team.stack ([] : List Pokemon)).lengthT = 0 ∧
        (Team.stack [testA]).lengthT ≠ 0) :=
  (claim_C6 (fun _ _ => 1) Criterion.health 0 0 1
    ⟨Team.stack [], Team.stack [testA], ∅, ∅⟩ (some Winner.trainer2)
    ⟨Team.stack [], Team.stack [testA], ∅, ∅⟩ rfl).2.1

lemma slAdd_head (x : ℚ × Pokemon) (acc : List (ℚ × Pokemon))
    (h : ∀ y ∈ acc, x.1 ≤ y.1) : slAdd x acc = x :: acc := by
  cases acc with
  | nil => rfl
  | cons y ys =>
    unfold slAdd
    rw [if_pos (h y (List.mem_cons_self _ _))]

lemma special_optimise_go_sorted (l : List (ℚ × Pokemon)) :
    ∀ acc : List (ℚ × Pokemon),
    l.Pairwise (fun a b => a.1 ≤ b.1) →
    (∀ x ∈ acc, ∀ y ∈ l, -y.1 ≤ x.1) →
    special_optimise_go l acc = (l.map fun x => (-x.1, x.2)).reverse ++ acc := by
  induction l with
  | nil => intro acc _ _; simp [special_optimise_go]
  | cons x s ih =>
    intro acc hsort hacc
    rw [special_optimise_go,
      slAdd_head _ _ (fun y hy => hacc y hy x (List.mem_cons_self _ _)),
      ih ((-x.1, x.2) :: acc) (List.pairwise_cons.mp hsort).2 ?_]
    · simp
    · intro z hz y hy
      rcases List.mem_cons.mp hz with rfl | hz'
      · have := (List.pairwise_cons.mp hsort).1 y hy
        dsimp only
        linarith
      · exact hacc z hz' y (List.mem_cons_of_mem _ hy)

lemma special_optimise_sorted (l : List (ℚ × Pokemon))
    (hsort : l.Pairwise fun a b => a.1 ≤ b.1) :
    special_optimise l = (l.map fun x => (-x.1, x.2)).reverse := by
  rw [special_optimise, special_optimise_go_sorted l [] hsort (by simp),
    List.append_nil]

lemma special_optimise_twice (l : List (ℚ × Pokemon))
    (hsort : l.Pairwise fun a b => a.1 ≤ b.1) :
    special_optimise (special_optimise l) = l := by
  rw [special_optimise_sorted l hsort]
  have hsort2 : ((l.map fun x => (-x.1, x.2)).reverse).Pairwise
      (fun a b : ℚ × Pokemon => a.1 ≤ b.1) := by
    rw [List.pairwise_reverse, List.pairwise_map]
    exact hsort.imp (fun {a b} hab => by dsimp only; linarith)
  rw [special_optimise_sorted _ hsort2, List.map_reverse, List.map_map,
    List.reverse_reverse]
  have hid : ((fun x : ℚ × Pokemon => (-x.1, x.2)) ∘
      fun x : ℚ × Pokemon => (-x.1, x.2)) = id := by
    funext x
    simp
  rw [hid, List.map_id]

/-- C9: for a team in the Ranked (OPTIMISE) representation (its sorted
invariant holding), invoking the special operation twice restores the
container to its original element order and original keys, and each
invocation increments the special counter by exactly 1, so the
counter's parity is unchanged after the two calls. -/
theorem claim_C9 (pt : PokeTeam) (l : List (ℚ × Pokemon))
    (hteam : pt.team = Team.slist l)
    (hsort : l.Pairwise fun a b => a.1 ≤ b.1) :
    ((pt.special BattleMode.OPTIMISE).special BattleMode.OPTIMISE).team =
      pt.team ∧
    (pt.special BattleMode.OPTIMISE).special_counter =
      pt.special_counter + 1 ∧
    ((pt.special BattleMode.OPTIMISE).special BattleMode.OPTIMISE).special_counter =
      pt.special_counter + 2 ∧
    ((pt.special BattleMode.OPTIMISE).special BattleMode.OPTIMISE).special_counter % 2 =
      pt.special_counter % 2 := by
  obtain ⟨tm, mem, cnt⟩ := pt
  obtain rfl : tm = Team.slist l := hteam
  simp only [PokeTeam.special, special_optimise_twice l hsort]
  refine ⟨trivial, trivial, trivial, ?_⟩
  omega

/-- C9 witness: a concrete two-element Ranked team. -/
theorem claim_C9_witness :
    ((PokeTeam.special BattleMode.OPTIMISE
        (PokeTeam.special BattleMode.OPTIMISE
          ⟨Team.slist [(1, testA), (3, testA)], [], 0⟩)).team =
      (⟨Team.slist [(1, testA), (3, testA)], [], 0⟩ : PokeTeam).team) :=
  (claim_C9 ⟨Team.slist [(1, testA), (3, testA)], [], 0⟩ [(1, testA), (3, testA)]
    rfl (by norm_num)).1

lemma foldl_cons_eq (l : List Pokemon) :
    ∀ acc, l.foldl (fun s p => p :: s) acc = l.reverse ++ acc := by
  induction l with
  | nil => intro acc; rfl
  | cons x s ih =>
    intro acc
    simp [List.foldl_cons, ih (x :: acc)]

lemma foldl_append_eq (l : List Pokemon) :
    ∀ acc, l.foldl (fun q p => q ++ [p]) acc = acc ++ l := by
  induction l with
  | nil => intro acc; simp
  | cons x s ih =>
    intro acc
    simp [List.foldl_cons, ih (acc ++ [x])]

lemma foldl_slAdd_perm (key : Pokemon → ℚ) (l : List Pokemon) :
    ∀ acc : List (ℚ × Pokemon),
    ((l.foldl (fun a p => slAdd (key p, p) a) acc).map Prod.snd).Perm
      (l ++ acc.map Prod.snd) := by
  induction l with
  | nil => intro acc; simp
  | cons p s ih =>
    intro acc
    have h1 := ih (slAdd (key p, p) acc)
    have h2 : ((slAdd (key p, p) acc).map Prod.snd).Perm (p :: acc.map Prod.snd) := by
      simpa using (slAdd_perm (key p, p) acc).map Prod.snd
    exact h1.trans ((h2.append_left s).trans List.perm_middle)

lemma assemble_values_perm (bm : BattleMode) (crit : Criterion) (l : List Pokemon) :
    ((assemble_team bm crit l).values).Perm l := by
  cases bm with
  | SET =>
    simp only [assemble_team, Team.values, foldl_cons_eq l [], List.append_nil]
    exact l.reverse_perm
  | ROTATE =>
    simp only [assemble_team, Team.values, foldl_append_eq l [], List.nil_append]
    exact List.Perm.refl l
  | OPTIMISE =>
    simpa using foldl_slAdd_perm (fun p => p.getattr crit) l []

lemma popPushN_le (n : ℕ) :
    ∀ (s d : List Pokemon), n ≤ s.length →
    popPushN n s d = (s.drop n, (s.take n).reverse ++ d) := by
  induction n with
  | zero => intro s d _; simp [popPushN]
  | succ n ih =>
    intro s d h
    cases s with
    | nil => simp at h
    | cons x s =>
      rw [popPushN, ih s (x :: d) (Nat.succ_le_succ_iff.mp (by simpa using h))]
      simp

lemma serveAppendN_le (n : ℕ) :
    ∀ (s d : List Pokemon), n ≤ s.length →
    serveAppendN n s d = (s.drop n, d ++ s.take n) := by
  induction n with
  | zero => intro s d _; simp [serveAppendN]
  | succ n ih =>
    intro s d h
    cases s with
    | nil => simp at h
    | cons x s =>
      rw [serveAppendN, ih s (d ++ [x]) (Nat.succ_le_succ_iff.mp (by simpa using h))]
      simp

/-- The SET special's net effect: the top half of the stack is
reversed. -/
lemma special_set_eq (l : List Pokemon) :
    special_set l =
      (l.take (l.length / 2)).reverse ++ l.drop (l.length / 2) := by
  unfold special_set
  rw [popPushN_le _ l [] (Nat.div_le_self _ _)]
  simp only [List.append_nil]
  rw [popPushN_le _ _ [] le_rfl]
  simp only [List.drop_length, List.take_length, List.reverse_reverse,
    List.append_nil]
  rw [popPushN_le _ _ _ le_rfl]
  simp

/-- The ROTATE special's net effect: the bottom half of the queue is
reversed. -/
lemma special_rotate_eq (l : List Pokemon) :
    special_rotate l =
      l.take (l.length / 2) ++ (l.drop (l.length / 2)).reverse := by
  unfold special_rotate
  rw [serveAppendN_le _ l [] (Nat.div_le_self _ _)]
  simp only [List.nil_append]
  rw [popPushN_le _ _ [] le_rfl]
  simp only [List.drop_length, List.take_length, List.append_nil]
  rw [serveAppendN_le _ _ _ le_rfl]
  simp only [List.drop_length, List.take_length, List.append_nil]
  rw [serveAppendN_le _ _ _ le_rfl]
  simp

lemma special_set_perm (l : List Pokemon) : (special_set l).Perm l := by
  rw [special_set_eq]
  exact (((l.take (l.length / 2)).reverse_perm).append_right _).trans
    (by rw [List.take_append_drop])

lemma special_rotate_perm (l : List Pokemon) : (special_rotate l).Perm l := by
  rw [special_rotate_eq]
  exact (((l.drop (l.length / 2)).reverse_perm).append_left _).trans
    (by rw [List.take_append_drop])

lemma special_optimise_go_perm (l : List (ℚ × Pokemon)) :
    ∀ acc, ((special_optimise_go l acc).map Prod.snd).Perm
      (l.map Prod.snd ++ acc.map Prod.snd) := by
  induction l with
  | nil => intro acc; simp [special_optimise_go]
  | cons x s ih =>
    intro acc
    rw [special_optimise_go]
    have h2 : ((slAdd (-x.1, x.2) acc).map Prod.snd).Perm
        (x.2 :: acc.map Prod.snd) := by
      simpa using (slAdd_perm (-x.1, x.2) acc).map Prod.snd
    exact (ih _).trans ((h2.append_left _).trans List.perm_middle)

lemma special_optimise_perm (l : List (ℚ × Pokemon)) :
    ((special_optimise l).map Prod.snd).Perm (l.map Prod.snd) := by
  simpa using special_optimise_go_perm l []

lemma special_values_perm (bm : BattleMode) (pt : PokeTeam) :
    ((PokeTeam.special bm pt).team.values).Perm pt.team.values ∧
    (PokeTeam.special bm pt).team_memory = pt.team_memory := by
  obtain ⟨tm, mem, cnt⟩ := pt
  cases bm <;> cases tm <;>
    refine ⟨?_, rfl⟩ <;>
    dsimp only [PokeTeam.special, Team.values] <;>
    first
      | exact List.Perm.refl _
      | exact special_set_perm _
      | exact special_rotate_perm _
      | exact special_optimise_perm _

/-- C7 counterexample: a two-member team whose combatant "a" fainted in
battle (health −7, removed from the container, which holds only "b").
`regenerate_team` heals **every** member of the `team_memory` snapshot
— which still contains "a" — and rebinds the container to it, so the
battle-fainted combatant reappears in the regenerated team, refuting
the claim that it does not. -/
theorem claim_C7_counterexample :
    (regenerate_team (fun _ => 20) BattleMode.ROTATE Criterion.health
        { team := Team.queue [{ testA with name := "b" }],
          team_memory := [{ testA with health := -7 },
            { testA with name := "b" }],
          special_counter := 0 }).team =
      Team.queue [{ testA with health := 20 },
        { testA with name := "b", health := 20 }] ∧
    ({ testA with health := -7 } : Pokemon).health ≤ 0 ∧
    ({ testA with health := 20 } : Pokemon).name = "a" := by
  refine ⟨?_, by norm_num [testA], rfl⟩
  norm_num [regenerate_team, heal, assemble_team, PokeTeam.special, testA]

/-- C7 (amended): `regenerate_team` restores baseline species health for
**all** combatants in the team-memory snapshot — which is the full
originally-selected roster, never pruned — so a battle-fainted
combatant **does** reappear in the regenerated team; the regenerated
container holds exactly the healed snapshot members, each keeping its
level, name, evolution line and other stats. -/
theorem claim_C7_amended (baseHealth : ℕ → ℚ) (bm : BattleMode)
    (crit : Criterion) (pt : PokeTeam) :
    ((regenerate_team baseHealth bm crit pt).team.values).Perm
      (pt.team_memory.map (heal baseHealth)) ∧
    (regenerate_team baseHealth bm crit pt).team_memory =
      pt.team_memory.map (heal baseHealth) ∧
    (∀ p : Pokemon,
      (heal baseHealth p).health = baseHealth p.species ∧
      (heal baseHealth p).level = p.level ∧
      (heal baseHealth p).name = p.name ∧
      (heal baseHealth p).evolution_line = p.evolution_line ∧
      (heal baseHealth p).battle_power = p.battle_power ∧
      (heal baseHealth p).defence = p.defence ∧
      (heal baseHealth p).speed = p.speed) := by
  unfold regenerate_team
  dsimp only
  split_ifs with hodd
  · refine ⟨?_, ?_, fun p => ⟨rfl, rfl, rfl, rfl, rfl, rfl, rfl⟩⟩
    · exact ((special_values_perm bm _).1).trans
        (assemble_values_perm bm crit (pt.team_memory.map (heal baseHealth)))
    · exact (special_values_perm bm _).2
  · exact ⟨assemble_values_perm bm crit (pt.team_memory.map (heal baseHealth)),
      rfl, fun p => ⟨rfl, rfl, rfl, rfl, rfl, rfl, rfl⟩⟩
